import Mathlib

/-
Shallow embedding of `src/bot.py` (Telegram verification-and-settlement bot).

The Mongo database is modelled as `DB`: `users_col` and `withdraws_col` are
insertion-ordered lists of documents, the single `old_price` document of
`settings_col` is the scalar `price`.  Mongo `update_one` updates the first
matching document; `insert_one` appends; `ObjectId` is modelled as a `Nat`
key `wid` (fresh ids are list lengths, since documents are never deleted).
`datetime.utcnow()` is modelled as a `Nat` timestamp passed in by the caller.
Handlers return a result value describing the reply they send plus the new
database state; outbound notifications are fire-and-forget and not part of
the state.
-/

namespace BotSpec

/-- Status of a withdrawal request document (the `status` field written by
`handle_withdraw_address` and `cb_approve_decline`). -/
inductive WStatus
  | pending
  | approved
  | declined
deriving DecidableEq

/-- A document of `withdraws_col`, as built in `handle_withdraw_address`
(bot.py lines 209-216) and mutated in `cb_approve_decline`. -/
structure WithdrawReq where
  wid : Nat
  user_id : Int
  address : String
  amount : Int
  status : WStatus
  created_at : Nat
  processed_at : Option Nat
  processed_by : Option Int
deriving DecidableEq

/-- A document of `users_col`, as created by `ensure_user` (bot.py 106-111). -/
structure UserDoc where
  user_id : Int
  balance : Int
  verified_groups : List String
deriving DecidableEq

/-- The bot's Mongo state: `users_col`, `withdraws_col` and the `old_price`
setting. -/
structure DB where
  users : List UserDoc
  withdraws : List WithdrawReq
  price : Int
deriving DecidableEq

/-- Mongo `update_one`: apply `f` to the first document matching `p`; without
upsert a miss changes nothing. -/
def updateFirst (p : α → Bool) (f : α → α) : List α → List α
  | [] => []
  | x :: xs => if p x then f x :: xs else x :: updateFirst p f xs

/-- Mongo `find_one({"user_id": uid})` on `users_col`. -/
def findUser (users : List UserDoc) (uid : Int) : Option UserDoc :=
  users.find? (fun u => u.user_id == uid)

/-- Mongo `find_one({"_id": ObjectId(wid)})` on `withdraws_col`. -/
def findWithdraw (l : List WithdrawReq) (wid : Nat) : Option WithdrawReq :=
  l.find? (fun w => w.wid == wid)

/-- Embeds `ensure_user` (bot.py 106-111): upsert with
`$setOnInsert {user_id, balance: 0, verified_groups: []}`. -/
def ensure_user (uid : Int) (users : List UserDoc) : List UserDoc :=
  match findUser users uid with
  | some _ => users
  | none => users ++ [⟨uid, 0, []⟩]

/-- Mongo `update_one({"user_id": uid}, {"$inc": {"balance": delta}})`
without upsert, as used for the withdrawal debit (bot.py 264). -/
def usersIncBalance (uid : Int) (delta : Int) (users : List UserDoc) : List UserDoc :=
  updateFirst (fun u => u.user_id == uid)
    (fun u => { u with balance := u.balance + delta }) users

/-- Balance as the handlers read it: `int(user.get("balance", 0))` with a
missing document read as zero (bot.py 203-204). -/
def balanceOf (users : List UserDoc) (uid : Int) : Int :=
  match findUser users uid with
  | some u => u.balance
  | none => 0

/-- The `$set {status, processed_at, processed_by}` update performed by
`cb_approve_decline` (bot.py 265 and 297). -/
def setWithdrawStatus (wid : Nat) (st : WStatus) (now : Nat) (adm : Int)
    (l : List WithdrawReq) : List WithdrawReq :=
  updateFirst (fun w => w.wid == wid)
    (fun w => { w with status := st, processed_at := some now, processed_by := some adm }) l

/-- Embeds `get_price` (bot.py 113-118). -/
def get_price (db : DB) : Int := db.price

/-- Embeds `set_price` (bot.py 120-121): stores `int(value)` unconditionally. -/
def set_price (v : Int) (db : DB) : DB := { db with price := v }

/-- Accumulator run of a decimal-digit parser: fails on the first non-digit
character. -/
def parseNatAux : List Char → Nat → Option Nat
  | [], acc => some acc
  | c :: cs, acc =>
    if c.isDigit then parseNatAux cs (acc * 10 + (c.toNat - 48)) else none

/-- Models Python `int(str)` as used by `cmd_price`: an optional leading
minus sign followed by one or more decimal digits yields the integer, and
anything else raises (returns `none`). -/
def pyInt? (s : String) : Option Int :=
  match s.data with
  | [] => none
  | '-' :: cs =>
    match cs with
    | [] => none
    | _ :: _ => (parseNatAux cs 0).map (fun n => -(n : Int))
  | cs => (parseNatAux cs 0).map (fun n => (n : Int))

/-- Reply sent by the `/price` admin command. -/
inductive PriceResult
  | unauthorized
  | usage
  | notANumber
  | priceSet (v : Int)
deriving DecidableEq

/-- Embeds `cmd_price` (bot.py 179-191): admin-only; `message.text.split()`
is passed as `args` (so `args[0]` is the command itself); `int(parts[1])` is
modelled by `pyInt?`, whose failure is the `except` branch. -/
def cmd_price (adminId fromId : Int) (args : List String) (db : DB) : PriceResult × DB :=
  if fromId ≠ adminId then (.unauthorized, db)
  else
    match args with
    | [] => (.usage, db)
    | [_] => (.usage, db)
    | _ :: p :: _ =>
      match pyInt? p with
      | none => (.notANumber, db)
      | some v => (.priceSet v, set_price v db)

/-- Reply sent by the withdrawal-address handler. -/
inductive SubmitResult
  | emptyBalance
  | submitted (wid : Nat)
deriving DecidableEq

/-- Embeds `handle_withdraw_address` (bot.py 200-232): `ensure_user`, read the
balance, reject a non-positive balance with no insert, otherwise insert one
`pending` request snapshotting `amount := balance`. -/
def handle_withdraw_address (uid : Int) (addr : String) (now : Nat) (db : DB) :
    SubmitResult × DB :=
  let users1 := ensure_user uid db.users
  let balance := balanceOf users1 uid
  if balance ≤ 0 then (.emptyBalance, { db with users := users1 })
  else
    let req : WithdrawReq :=
      ⟨db.withdraws.length, uid, addr, balance, .pending, now, none, none⟩
    (.submitted req.wid, { db with users := users1, withdraws := db.withdraws ++ [req] })

/-- Embeds `cmd_wdlist` (bot.py 235-245): admin-only; the query
`find({"status": "pending"})` is issued with no sort, so it replies with the
pending documents in whatever order the collection holds them (the list order
of `withdraws` here); MongoDB guarantees no particular order for an unsorted
find, and the source never adds a `.sort(...)`. -/
def cmd_wdlist (adminId fromId : Int) (db : DB) : Option (List WithdrawReq) :=
  if fromId ≠ adminId then none
  else some (db.withdraws.filter (fun w => w.status == WStatus.pending))

/-- The two callback buttons `approve:` and `decline:`. -/
inductive Decision
  | approve
  | decline
deriving DecidableEq

/-- Reply sent by the approve/decline callback; `alreadyProcessed` is the
alert "Request not found or already processed.". -/
inductive DecideResult
  | unauthorized
  | alreadyProcessed
  | approved
  | declined
deriving DecidableEq

/-- Embeds `cb_approve_decline` (bot.py 248-306): admin-only; each branch
finds the request, answers `alreadyProcessed` unless it is `pending`; approve
then debits `amount` from the user and marks the request approved, decline
only marks it declined. -/
def cb_approve_decline (adminId fromId : Int) (d : Decision) (wid : Nat) (now : Nat)
    (db : DB) : DecideResult × DB :=
  if fromId ≠ adminId then (.unauthorized, db)
  else
    match d with
    | .approve =>
      match findWithdraw db.withdraws wid with
      | none => (.alreadyProcessed, db)
      | some wd =>
        if wd.status ≠ .pending then (.alreadyProcessed, db)
        else
          (.approved,
            { db with
              users := usersIncBalance wd.user_id (-wd.amount) db.users,
              withdraws := setWithdrawStatus wid .approved now fromId db.withdraws })
    | .decline =>
      match findWithdraw db.withdraws wid with
      | none => (.alreadyProcessed, db)
      | some wd =>
        if wd.status ≠ .pending then (.alreadyProcessed, db)
        else
          (.declined,
            { db with withdraws := setWithdrawStatus wid .declined now fromId db.withdraws })

/-- Creation date of a resolved Telegram entity (only the year is inspected). -/
structure GDate where
  year : Int
deriving DecidableEq

/-- The part of the entity returned by `userbot.get_entity` that
`verify_group_process` inspects: `getattr(entity, "date", None)`. -/
structure EntityInfo where
  date : Option GDate
deriving DecidableEq

/-- Outcome of `userbot(JoinChannelRequest(...))` (bot.py 364-368): success,
an `RPCError`, or any other exception. -/
inductive JoinOutcome
  | ok
  | rpcError
  | otherError
deriving DecidableEq

/-- Behaviour of the external probe and registry during one verification
attempt.  `promoted i` is what `is_userbot_admin_in` reports at the i-th poll
iteration; `priceAt i` is what `get_price()` would return at that iteration
(the admin may change the price while the attempt is polling). -/
structure ProbeEnv where
  join : JoinOutcome
  fallbackSignalOk : Bool
  entity : Option EntityInfo
  mainSignalOk : Bool
  promoted : Nat → Bool
  priceAt : Nat → Int

/-- Terminal outcome of `verify_group_process`, one per user-facing message. -/
inductive VerifyResult
  | probeUnreachable
  | entityNotFound
  | invalidGroupAge
  | verified (tick : Nat) (price : Int)
  | timedOut
deriving DecidableEq

/-- The single atomic ledger update issued on promotion (bot.py 404):
`update_one({"user_id": uid}, {"$inc": {"balance": price},
"$push": {"verified_groups": group}}, upsert=True)`. -/
structure CreditEffect where
  user_id : Int
  amount : Int
  group : String
deriving DecidableEq

/-- Apply one credit effect: upsert semantics, so a missing user document is
created with `balance := amount` and the single pushed group. -/
def applyCredit (c : CreditEffect) : List UserDoc → List UserDoc
  | [] => [⟨c.user_id, c.amount, [c.group]⟩]
  | u :: rest =>
    if u.user_id == c.user_id then
      { u with balance := u.balance + c.amount,
               verified_groups := u.verified_groups ++ [c.group] } :: rest
    else u :: applyCredit c rest

/-- Apply a list of credit effects in order. -/
def applyCredits (cs : List CreditEffect) (users : List UserDoc) : List UserDoc :=
  cs.foldl (fun us c => applyCredit c us) users

/-- The join phase of `verify_group_process` (bot.py 363-373) aborts exactly
when the join raises a non-RPC exception and the immediate fallback
`send_message(group_link, "A")` also fails; an `RPCError` is `pass`ed over
with no fallback required. -/
def joinAborts (env : ProbeEnv) : Bool :=
  match env.join with
  | .ok => false
  | .rpcError => false
  | .otherError => !env.fallbackSignalOk

/-- The polling loop (bot.py 398-413): starting at iteration `i` with `k`
iterations left, return the first iteration at which the probe reports
promotion, if any. -/
def firstPromoted (promoted : Nat → Bool) : Nat → Nat → Option Nat
  | 0, _ => none
  | k + 1, i => if promoted i then some i else firstPromoted promoted k (i + 1)

/-- Number of iterations of `while waited < timeout` with
`waited += interval` (bot.py: timeout 120, interval 5, giving 24 polls). -/
def pollIters (timeout interval : Nat) : Nat := (timeout + interval - 1) / interval

/-- The creation-date check (bot.py 382-389): skipped entirely when the entity
carries no date; otherwise the year must lie in [2016, 2024]. -/
def ageOk (d : Option GDate) : Bool :=
  match d with
  | none => true
  | some g => decide (2016 ≤ g.year) && decide (g.year ≤ 2024)

/-- Embeds `verify_group_process` (bot.py 362-414) over a probe environment.
Returns the terminal result together with the list of ledger updates the run
performs (the second `send_message(entity, "A")` at line 391-394 swallows its
failure, so `mainSignalOk` does not influence the outcome, matching the
source).  On promotion at iteration `i` the price credited is `priceAt i`,
the registry value read at credit time. -/
def verify_group_process (callerId : Int) (group : String) (env : ProbeEnv)
    (timeout : Nat) : VerifyResult × List CreditEffect :=
  if joinAborts env then (.probeUnreachable, [])
  else
    match env.entity with
    | none => (.entityNotFound, [])
    | some ent =>
      if ageOk ent.date then
        match firstPromoted env.promoted (pollIters timeout 5) 0 with
        | some i => (.verified i (env.priceAt i), [⟨callerId, env.priceAt i, group⟩])
        | none => (.timedOut, [])
      else (.invalidGroupAge, [])

/-- A database operation that touches only `users_col` (any balance change a
later interaction performs). -/
def applyUserOp (g : List UserDoc → List UserDoc) (db : DB) : DB :=
  { db with users := g db.users }

/-- Scenario for the unconditional-debit property: a user with balance `B`
submits two withdrawal requests (each snapshots the full balance, since
submission does not debit), then the admin approves both. -/
def doubleWithdraw (B : Int) : DB :=
  let db0 : DB := ⟨[⟨7, B, []⟩], [], 100⟩
  let db1 := (handle_withdraw_address 7 "0xA" 0 db0).2
  let db2 := (handle_withdraw_address 7 "0xB" 1 db1).2
  let db3 := (cb_approve_decline 9 9 .approve 0 2 db2).2
  (cb_approve_decline 9 9 .approve 1 3 db3).2

/-- Concrete probe run in which the join fails with an `RPCError` and every
signal attempt fails too, yet the attempt is not aborted. -/
def bothFailEnv : ProbeEnv :=
  { join := .rpcError
    fallbackSignalOk := false
    entity := some ⟨some ⟨2020⟩⟩
    mainSignalOk := false
    promoted := fun _ => false
    priceAt := fun _ => 0 }

/-! ## Shared lemmas about the store primitives -/

theorem find?_updateFirst (p : α → Bool) (f : α → α)
    (hf : ∀ x, p x = true → p (f x) = true) (l : List α) :
    List.find? p (updateFirst p f l) = (List.find? p l).map f := by
  induction l with
  | nil => rfl
  | cons x xs ih =>
    by_cases hx : p x = true
    · simp [updateFirst, hx, List.find?_cons_of_pos, hf x hx]
    · have hx2 : p x = false := by simpa using hx
      simp [updateFirst, hx2, List.find?_cons_of_neg, ih]

theorem findUser_usersIncBalance (uid delta : Int) (users : List UserDoc) :
    findUser (usersIncBalance uid delta users) uid =
      (findUser users uid).map (fun u => { u with balance := u.balance + delta }) := by
  unfold findUser usersIncBalance
  exact find?_updateFirst (fun u => u.user_id == uid)
    (fun u => { u with balance := u.balance + delta }) (fun x hx => hx) users

theorem findWithdraw_setWithdrawStatus (wid : Nat) (st : WStatus) (now : Nat) (adm : Int)
    (l : List WithdrawReq) :
    findWithdraw (setWithdrawStatus wid st now adm l) wid =
      (findWithdraw l wid).map
        (fun w => { w with status := st, processed_at := some now, processed_by := some adm }) := by
  unfold findWithdraw setWithdrawStatus
  exact find?_updateFirst (fun w => w.wid == wid)
    (fun w => { w with status := st, processed_at := some now, processed_by := some adm })
    (fun x hx => hx) l

theorem nonpending_decide_noop (adminId : Int) (d : Decision) (wid : Nat) (now : Nat)
    (db : DB) (wd : WithdrawReq)
    (hfind : findWithdraw db.withdraws wid = some wd)
    (hterm : wd.status = .approved ∨ wd.status = .declined) :
    cb_approve_decline adminId adminId d wid now db = (.alreadyProcessed, db) := by
  have hne : wd.status ≠ .pending := by
    rcases hterm with h | h <;> simp [h]
  cases d <;> simp [cb_approve_decline, hfind, hne]

/-! ## Claim C1 -/

/-- Claim C1: for every withdrawal request whose status is already terminal
(approved or declined), any further admin decide call — approve or decline,
duplicated or retried — returns `AlreadyProcessed` and changes neither the
request's status nor the user's balance (the whole database is unchanged). -/
theorem decide_terminal_is_noop (adminId : Int) (d : Decision) (wid : Nat) (now : Nat)
    (db : DB) (wd : WithdrawReq)
    (hfind : findWithdraw db.withdraws wid = some wd)
    (hterm : wd.status = .approved ∨ wd.status = .declined) :
    cb_approve_decline adminId adminId d wid now db = (.alreadyProcessed, db) :=
  nonpending_decide_noop adminId d wid now db wd hfind hterm

/-- Witness for C1: a retried decline on an already-approved request is a
no-op. -/
theorem decide_terminal_is_noop_witness :
    cb_approve_decline 9 9 .decline 0 5
        ⟨[⟨1, 0, []⟩], [⟨0, 1, "0xA", 50, .approved, 0, some 1, some 9⟩], 100⟩ =
      (.alreadyProcessed,
        ⟨[⟨1, 0, []⟩], [⟨0, 1, "0xA", 50, .approved, 0, some 1, some 9⟩], 100⟩) :=
  decide_terminal_is_noop 9 .decline 0 5 _
    ⟨0, 1, "0xA", 50, .approved, 0, some 1, some 9⟩ rfl (Or.inl rfl)

/-! ## Claim C2 -/

/-- Claim C2: approving a pending withdrawal of amount A debits exactly A from
the owning user's balance, exactly once, and marks the request approved; a
redelivered approval on the resulting state returns `AlreadyProcessed` and
causes no additional debit. -/
theorem approve_debits_once (adminId : Int) (wid : Nat) (now now2 : Nat) (db : DB)
    (wd : WithdrawReq) (u : UserDoc)
    (hfind : findWithdraw db.withdraws wid = some wd)
    (hpend : wd.status = .pending)
    (huser : findUser db.users wd.user_id = some u) :
    (cb_approve_decline adminId adminId .approve wid now db).1 = .approved ∧
    findUser (cb_approve_decline adminId adminId .approve wid now db).2.users wd.user_id =
      some { u with balance := u.balance - wd.amount } ∧
    findWithdraw (cb_approve_decline adminId adminId .approve wid now db).2.withdraws wid =
      some { wd with status := .approved, processed_at := some now,
                     processed_by := some adminId } ∧
    cb_approve_decline adminId adminId .approve wid now2
        (cb_approve_decline adminId adminId .approve wid now db).2 =
      (.alreadyProcessed, (cb_approve_decline adminId adminId .approve wid now db).2) := by
  have hred : cb_approve_decline adminId adminId .approve wid now db =
      (.approved,
        { db with
          users := usersIncBalance wd.user_id (-wd.amount) db.users,
          withdraws := setWithdrawStatus wid .approved now adminId db.withdraws }) := by
    simp [cb_approve_decline, hfind, hpend]
  have hbal : findUser (cb_approve_decline adminId adminId .approve wid now db).2.users
      wd.user_id = some { u with balance := u.balance - wd.amount } := by
    rw [hred]
    rw [show ({ db with
          users := usersIncBalance wd.user_id (-wd.amount) db.users,
          withdraws := setWithdrawStatus wid .approved now adminId db.withdraws } : DB).users =
        usersIncBalance wd.user_id (-wd.amount) db.users from rfl]
    rw [findUser_usersIncBalance, huser]
    simp [Int.sub_eq_add_neg]
  have hwd : findWithdraw (cb_approve_decline adminId adminId .approve wid now db).2.withdraws
      wid = some { wd with status := .approved, processed_at := some now,
                           processed_by := some adminId } := by
    rw [hred]
    rw [show ({ db with
          users := usersIncBalance wd.user_id (-wd.amount) db.users,
          withdraws := setWithdrawStatus wid .approved now adminId db.withdraws } : DB).withdraws =
        setWithdrawStatus wid .approved now adminId db.withdraws from rfl]
    rw [findWithdraw_setWithdrawStatus, hfind]
    rfl
  refine ⟨by rw [hred], hbal, hwd, ?_⟩
  exact nonpending_decide_noop adminId .approve wid now2 _ _ hwd (Or.inl rfl)

/-- Witness for C2: approving a pending withdrawal of amount 50 on a user with
balance 50 leaves balance 0, the request approved, and a retried approval a
no-op. -/
theorem approve_debits_once_witness :
    (cb_approve_decline 9 9 .approve 0 5
        ⟨[⟨1, 50, []⟩], [⟨0, 1, "0xA", 50, .pending, 0, none, none⟩], 100⟩).1 = .approved ∧
    findUser (cb_approve_decline 9 9 .approve 0 5
        ⟨[⟨1, 50, []⟩], [⟨0, 1, "0xA", 50, .pending, 0, none, none⟩], 100⟩).2.users 1 =
      some ⟨1, 0, []⟩ ∧
    findWithdraw (cb_approve_decline 9 9 .approve 0 5
        ⟨[⟨1, 50, []⟩], [⟨0, 1, "0xA", 50, .pending, 0, none, none⟩], 100⟩).2.withdraws 0 =
      some ⟨0, 1, "0xA", 50, .approved, 0, some 5, some 9⟩ ∧
    cb_approve_decline 9 9 .approve 0 6
        (cb_approve_decline 9 9 .approve 0 5
          ⟨[⟨1, 50, []⟩], [⟨0, 1, "0xA", 50, .pending, 0, none, none⟩], 100⟩).2 =
      (.alreadyProcessed,
        (cb_approve_decline 9 9 .approve 0 5
          ⟨[⟨1, 50, []⟩], [⟨0, 1, "0xA", 50, .pending, 0, none, none⟩], 100⟩).2) :=
  approve_debits_once 9 0 5 6 _ ⟨0, 1, "0xA", 50, .pending, 0, none, none⟩ ⟨1, 50, []⟩
    rfl rfl rfl

/-! ## Claim C3 -/

/-- Claim C3: submitting a withdrawal with balance 0 fails with `EmptyBalance`
and creates no request record; with a positive balance it creates exactly one
`pending` request whose `amount` is the balance at call time, and that amount
is unaffected by any later balance change (balance mutations never touch the
withdrawal store). -/
theorem submit_snapshots_balance (uid : Int) (addr : String) (now : Nat) (db : DB) :
    (balanceOf (ensure_user uid db.users) uid = 0 →
      handle_withdraw_address uid addr now db =
        (.emptyBalance, { db with users := ensure_user uid db.users })) ∧
    (0 < balanceOf (ensure_user uid db.users) uid →
      handle_withdraw_address uid addr now db =
        (.submitted db.withdraws.length,
          { db with
            users := ensure_user uid db.users,
            withdraws := db.withdraws ++
              [⟨db.withdraws.length, uid, addr, balanceOf (ensure_user uid db.users) uid,
                .pending, now, none, none⟩] }) ∧
      ∀ (uid2 delta : Int),
        (applyUserOp (usersIncBalance uid2 delta)
            (handle_withdraw_address uid addr now db).2).withdraws.getLast? =
          some ⟨db.withdraws.length, uid, addr,
                balanceOf (ensure_user uid db.users) uid, .pending, now, none, none⟩) := by
  constructor
  · intro h0
    simp [handle_withdraw_address, h0]
  · intro hpos
    have hns : ¬ balanceOf (ensure_user uid db.users) uid ≤ 0 := by omega
    have hred : handle_withdraw_address uid addr now db =
        (.submitted db.withdraws.length,
          { db with
            users := ensure_user uid db.users,
            withdraws := db.withdraws ++
              [⟨db.withdraws.length, uid, addr, balanceOf (ensure_user uid db.users) uid,
                .pending, now, none, none⟩] }) := by
      simp [handle_withdraw_address, hns]
    refine ⟨hred, fun uid2 delta => ?_⟩
    rw [hred]
    simp [applyUserOp, List.getLast?_concat]

/-- Witness for C3: user 1 with balance 50 submits address "0xA" at time 0;
one pending request of amount 50 is created, and a later debit of 99 to some
other user leaves the stored amount at 50.  A fresh user 2 with balance 0
submitting creates nothing and gets `EmptyBalance`. -/
theorem submit_snapshots_balance_witness :
    handle_withdraw_address 1 "0xA" 0 ⟨[⟨1, 50, []⟩], [], 100⟩ =
      (.submitted 0,
        ⟨[⟨1, 50, []⟩], [⟨0, 1, "0xA", 50, .pending, 0, none, none⟩], 100⟩) ∧
    (applyUserOp (usersIncBalance 2 (-99))
        (handle_withdraw_address 1 "0xA" 0 ⟨[⟨1, 50, []⟩], [], 100⟩).2).withdraws.getLast? =
      some ⟨0, 1, "0xA", 50, .pending, 0, none, none⟩ ∧
    handle_withdraw_address 2 "0xB" 3 ⟨[], [], 100⟩ =
      (.emptyBalance, ⟨[⟨2, 0, []⟩], [], 100⟩) := by
  have h := (submit_snapshots_balance 1 "0xA" 0 ⟨[⟨1, 50, []⟩], [], 100⟩).2 (by decide)
  have h0 := (submit_snapshots_balance 2 "0xB" 3 ⟨[], [], 100⟩).1 (by decide)
  exact ⟨h.1, h.2 2 (-99), h0⟩

/-! ## Claim C10 -/

/-- Claim C10: the approval debit is unconditional — it never rechecks the
user's current balance — so a user who submits two withdrawal requests, each
snapshotting the full balance B, and has both approved ends with stored
balance −B, which is negative: no operation enforces balance ≥ 0. -/
theorem double_approve_goes_negative (B : Int) (hB : 0 < B) :
    balanceOf (doubleWithdraw B).users 7 = -B ∧
    balanceOf (doubleWithdraw B).users 7 < 0 := by
  have hns : ¬ (B ≤ 0) := by omega
  have hfin : balanceOf (doubleWithdraw B).users 7 = -B := by
    simp [doubleWithdraw, handle_withdraw_address, ensure_user, findUser, balanceOf,
      cb_approve_decline, findWithdraw, usersIncBalance, updateFirst, setWithdrawStatus,
      List.find?, hns]
  exact ⟨hfin, by omega⟩

/-- Witness for C10: with balance 5, submitting twice and approving both
requests leaves the stored balance at −5. -/
theorem double_approve_goes_negative_witness :
    balanceOf (doubleWithdraw 5).users 7 = -5 ∧ balanceOf (doubleWithdraw 5).users 7 < 0 :=
  double_approve_goes_negative 5 (by decide)

/-! ## Claim C4 -/

theorem findUser_applyCredit (c : CreditEffect) (users : List UserDoc) (u : UserDoc)
    (h : findUser users c.user_id = some u) :
    findUser (applyCredit c users) c.user_id =
      some { u with balance := u.balance + c.amount,
                    verified_groups := u.verified_groups ++ [c.group] } := by
  induction users with
  | nil => simp [findUser] at h
  | cons x xs ih =>
    by_cases hx : (x.user_id == c.user_id) = true
    · simp only [findUser, List.find?, hx, Option.some.injEq] at h
      subst h
      simp [applyCredit, hx, findUser, List.find?]
    · have hx2 : (x.user_id == c.user_id) = false := by simpa using hx
      simp only [findUser, List.find?, hx2] at h
      have ih2 := ih h
      simp only [applyCredit, hx2, Bool.false_eq_true, if_false]
      simp only [findUser, List.find?, hx2]
      exact ih2

/-- Claim C4: a verification attempt that observes promotion (at poll
iteration i) performs exactly one ledger update, crediting the caller's
balance by the price read from the registry at credit time (`priceAt i`, not
the attempt-start price) and pushing the group onto the verified set; the
effect list of the whole attempt is that single credit, so the credit happens
at most once per attempt. -/
theorem promotion_credits_once (callerId : Int) (group : String) (env : ProbeEnv)
    (timeout : Nat) (i : Nat) (e : EntityInfo) (u : UserDoc) (users : List UserDoc)
    (hjoin : joinAborts env = false)
    (hent : env.entity = some e)
    (hage : ageOk e.date = true)
    (hprom : firstPromoted env.promoted (pollIters timeout 5) 0 = some i)
    (huser : findUser users callerId = some u) :
    verify_group_process callerId group env timeout =
      (.verified i (env.priceAt i), [⟨callerId, env.priceAt i, group⟩]) ∧
    findUser (applyCredits (verify_group_process callerId group env timeout).2 users)
        callerId =
      some { u with balance := u.balance + env.priceAt i,
                    verified_groups := u.verified_groups ++ [group] } := by
  have hred : verify_group_process callerId group env timeout =
      (.verified i (env.priceAt i), [⟨callerId, env.priceAt i, group⟩]) := by
    simp [verify_group_process, hjoin, hent, hage, hprom]
  refine ⟨hred, ?_⟩
  rw [hred]
  have := findUser_applyCredit ⟨callerId, env.priceAt i, group⟩ users u huser
  simpa [applyCredits] using this

/-- Witness for C4: the price registry holds 7 at attempt start and 50 from
iteration 1 on; promotion is observed at iteration 1, so the single credit is
50, the price at credit time. -/
theorem promotion_credits_once_witness :
    verify_group_process 3 "g"
        ⟨.ok, true, some ⟨some ⟨2020⟩⟩, true, fun i => i == 1,
          fun i => if i == 0 then 7 else 50⟩ 120 =
      (.verified 1 50, [⟨3, 50, "g"⟩]) ∧
    findUser (applyCredits (verify_group_process 3 "g"
        ⟨.ok, true, some ⟨some ⟨2020⟩⟩, true, fun i => i == 1,
          fun i => if i == 0 then 7 else 50⟩ 120).2 [⟨3, 10, []⟩]) 3 =
      some ⟨3, 60, ["g"]⟩ := by
  have h := promotion_credits_once 3 "g"
    ⟨.ok, true, some ⟨some ⟨2020⟩⟩, true, fun i => i == 1,
      fun i => if i == 0 then 7 else 50⟩ 120 1 ⟨some ⟨2020⟩⟩ ⟨3, 10, []⟩ [⟨3, 10, []⟩]
    rfl rfl (by decide) (by decide) rfl
  exact h

/-! ## Claim C5 -/

/-- Claim C5: a verification attempt on a group whose creation year lies
outside [2016, 2024] fails with `InvalidGroupAge` and performs no ledger
update at all, so the caller's balance and verified-group set are unchanged. -/
theorem invalid_age_no_mutation (callerId : Int) (group : String) (env : ProbeEnv)
    (timeout : Nat) (e : EntityInfo) (g : GDate)
    (hjoin : joinAborts env = false)
    (hent : env.entity = some e)
    (hdate : e.date = some g)
    (hyear : g.year < 2016 ∨ 2024 < g.year) :
    verify_group_process callerId group env timeout = (.invalidGroupAge, []) ∧
    ∀ users : List UserDoc,
      applyCredits (verify_group_process callerId group env timeout).2 users = users := by
  have hage : ageOk e.date = false := by
    rw [hdate]
    rcases hyear with h | h <;> simp [ageOk] <;> omega
  have hred : verify_group_process callerId group env timeout = (.invalidGroupAge, []) := by
    simp [verify_group_process, hjoin, hent, hage]
  exact ⟨hred, fun users => by rw [hred]; rfl⟩

/-- Witness for C5: a group created in 2015 is rejected with
`InvalidGroupAge`, and a ledger with one user is left untouched. -/
theorem invalid_age_no_mutation_witness :
    verify_group_process 3 "g"
        ⟨.ok, true, some ⟨some ⟨2015⟩⟩, true, fun _ => true, fun _ => 50⟩ 120 =
      (.invalidGroupAge, []) ∧
    applyCredits (verify_group_process 3 "g"
        ⟨.ok, true, some ⟨some ⟨2015⟩⟩, true, fun _ => true, fun _ => 50⟩ 120).2
        [⟨3, 10, []⟩] =
      [⟨3, 10, []⟩] := by
  have h := invalid_age_no_mutation 3 "g"
    ⟨.ok, true, some ⟨some ⟨2015⟩⟩, true, fun _ => true, fun _ => 50⟩ 120
    ⟨some ⟨2015⟩⟩ ⟨2015⟩ rfl rfl rfl (by decide)
  exact ⟨h.1, h.2 [⟨3, 10, []⟩]⟩

/-! ## Claim C9 -/

/-- Claim C9: when the resolved entity carries no creation date, the
creation-year validation is skipped entirely and the attempt proceeds to
polling — it never fails with `InvalidGroupAge` and can be verified and
credited. -/
theorem no_date_skips_age_check (callerId : Int) (group : String) (env : ProbeEnv)
    (timeout : Nat) (e : EntityInfo)
    (hjoin : joinAborts env = false)
    (hent : env.entity = some e)
    (hdate : e.date = none) :
    verify_group_process callerId group env timeout =
      (match firstPromoted env.promoted (pollIters timeout 5) 0 with
       | some i => (.verified i (env.priceAt i), [⟨callerId, env.priceAt i, group⟩])
       | none => (.timedOut, [])) ∧
    (verify_group_process callerId group env timeout).1 ≠ .invalidGroupAge := by
  have hage : ageOk e.date = true := by rw [hdate]; rfl
  have hred : verify_group_process callerId group env timeout =
      (match firstPromoted env.promoted (pollIters timeout 5) 0 with
       | some i => (.verified i (env.priceAt i), [⟨callerId, env.priceAt i, group⟩])
       | none => (.timedOut, [])) := by
    simp only [verify_group_process, hjoin, Bool.false_eq_true, if_false, hent, hage, if_true]
  refine ⟨hred, ?_⟩
  rw [hred]
  cases hfp : firstPromoted env.promoted (pollIters timeout 5) 0 <;> simp

/-- Witness for C9: an entity with no creation date, promoted at the first
poll, is verified and credited — no `InvalidGroupAge`. -/
theorem no_date_skips_age_check_witness :
    verify_group_process 3 "g"
        ⟨.ok, true, some ⟨none⟩, true, fun _ => true, fun _ => 50⟩ 120 =
      (.verified 0 50, [⟨3, 50, "g"⟩]) ∧
    (verify_group_process 3 "g"
        ⟨.ok, true, some ⟨none⟩, true, fun _ => true, fun _ => 50⟩ 120).1 ≠
      .invalidGroupAge := by
  have h := no_date_skips_age_check 3 "g"
    ⟨.ok, true, some ⟨none⟩, true, fun _ => true, fun _ => 50⟩ 120 ⟨none⟩ rfl rfl rfl
  exact h

/-! ## Claim C6 -/

theorem postJoin_ne_probeUnreachable (callerId : Int) (group : String) (env : ProbeEnv)
    (timeout : Nat) (h : joinAborts env = false) :
    (verify_group_process callerId group env timeout).1 ≠ VerifyResult.probeUnreachable := by
  unfold verify_group_process
  rw [h]
  simp only [Bool.false_eq_true, if_false]
  cases env.entity with
  | none => simp
  | some ent =>
    by_cases hage : ageOk ent.date = true
    · simp only [hage, if_true]
      cases hfp : firstPromoted env.promoted (pollIters timeout 5) 0 <;> simp
    · have hage2 : ageOk ent.date = false := by simpa using hage
      simp [hage2]

/-- Claim C6 counterexample: in the run `bothFailEnv` the join step fails
(with an RPC error) and every signal attempt fails too, yet the attempt is
not aborted with `ProbeUnreachable` — it proceeds to polling and times out.
This refutes "aborts with ProbeUnreachable if and only if both the join and
the signal steps fail". -/
theorem both_fail_no_abort_counterexample :
    bothFailEnv.join = JoinOutcome.rpcError ∧
    bothFailEnv.fallbackSignalOk = false ∧
    bothFailEnv.mainSignalOk = false ∧
    (verify_group_process 1 "g" bothFailEnv 120).1 = VerifyResult.timedOut := by
  refine ⟨rfl, rfl, rfl, ?_⟩
  decide

/-- Claim C6 amended: the attempt aborts with `ProbeUnreachable` exactly when
the join fails with a non-RPC error and the immediate fallback signal also
fails; a join failure classified as an RPC error is tolerated unconditionally
(even when the signal step also fails), and a signal failure alone never
aborts the attempt. -/
theorem probe_abort_iff (callerId : Int) (group : String) (env : ProbeEnv) (timeout : Nat) :
    (verify_group_process callerId group env timeout).1 = VerifyResult.probeUnreachable ↔
      env.join = JoinOutcome.otherError ∧ env.fallbackSignalOk = false := by
  constructor
  · intro h
    by_cases hj : joinAborts env = true
    · unfold joinAborts at hj
      cases hje : env.join <;> rw [hje] at hj <;> simp_all
    · have hj2 : joinAborts env = false := by simpa using hj
      exact absurd h (postJoin_ne_probeUnreachable callerId group env timeout hj2)
  · rintro ⟨h1, h2⟩
    have hj : joinAborts env = true := by simp [joinAborts, h1, h2]
    unfold verify_group_process
    rw [hj]
    simp

/-! ## Claim C8 -/

/-- Claim C8 counterexample: the admin command `/price -5` is accepted — the
handler validates only that the argument parses as an integer — and the
stored price becomes −5, violating the claimed invariant `value ≥ 0`. -/
theorem negative_price_counterexample :
    (cmd_price 1 1 ["/price", "-5"] ⟨[], [], 100⟩).1 = PriceResult.priceSet (-5) ∧
    (cmd_price 1 1 ["/price", "-5"] ⟨[], [], 100⟩).2.price = -5 ∧
    (cmd_price 1 1 ["/price", "-5"] ⟨[], [], 100⟩).2.price < 0 := by
  refine ⟨?_, ?_, ?_⟩ <;> decide

/-- Claim C8 amended: set-price validates only that the value is an integer:
any integer, including a negative one, is accepted and stored verbatim (so
the stored price can be negative); a non-integer argument is rejected without
any change to the stored price. -/
theorem price_accepts_any_integer (adminId : Int) (s : String) (db : DB) (v : Int) :
    (pyInt? s = some v →
      cmd_price adminId adminId ["/price", s] db = (.priceSet v, set_price v db)) ∧
    (pyInt? s = none →
      cmd_price adminId adminId ["/price", s] db = (.notANumber, db)) := by
  constructor
  · intro h
    simp [cmd_price, h]
  · intro h
    simp [cmd_price, h]

/-- Witness for the amended C8: "-5" parses to −5 and is applied; "x" does
not parse and leaves the database unchanged. -/
theorem price_accepts_any_integer_witness :
    cmd_price 1 1 ["/price", "-5"] ⟨[], [], 100⟩ =
      (.priceSet (-5), set_price (-5) ⟨[], [], 100⟩) ∧
    cmd_price 1 1 ["/price", "x"] ⟨[], [], 100⟩ = (.notANumber, ⟨[], [], 100⟩) :=
  ⟨(price_accepts_any_integer 1 "-5" ⟨[], [], 100⟩ (-5)).1 (by decide),
   (price_accepts_any_integer 1 "x" ⟨[], [], 100⟩ 0).2 (by decide)⟩

/-! ## Claim C7 -/

/-- Claim C7 (code bug): `cmd_wdlist` embeds `find({"status": "pending"})`,
which the source issues with no sort, so the reply is the pending documents
in whatever order the collection holds them.  At a store holding two pending
requests in storage order `created_at` 10 then 5 — an order MongoDB permits
for an unsorted find — the listing returns exactly those pending requests in
that order, which is not createdAt-ascending: the oldest-first order the spec
requires is not enforced by the code (the missing `.sort("created_at", 1)`). -/
theorem wdlist_unsorted_bug :
    cmd_wdlist 9 9
        ⟨[], [⟨0, 1, "0xA", 50, .pending, 10, none, none⟩,
              ⟨1, 2, "0xB", 60, .pending, 5, none, none⟩], 100⟩ =
      some [⟨0, 1, "0xA", 50, .pending, 10, none, none⟩,
            ⟨1, 2, "0xB", 60, .pending, 5, none, none⟩] ∧
    ¬ List.Pairwise (fun a b => a.created_at ≤ b.created_at)
        ([⟨0, 1, "0xA", 50, .pending, 10, none, none⟩,
          ⟨1, 2, "0xB", 60, .pending, 5, none, none⟩] : List WithdrawReq) := by
  constructor
  · rfl
  · intro h
    have h2 := List.rel_of_pairwise_cons h (List.mem_singleton.mpr rfl)
    simp at h2


end BotSpec
